import Mathlib

/-!
Verification of the multyproc_asyncio harvesting pipelines
(`src/ticker.py`, `src/image_scraper.py`) against their specification.

The source is shallowly embedded: HTTP traffic is an explicit environment
mapping a request to the response the server returns; filesystem writes are
recorded as explicit `FsWrite` values; the multiprocessing queues are
modelled as the per-worker sequence of items that worker dequeues.
-/

set_option autoImplicit false

namespace MP

/-! ### Python string membership

`needle in hay` for Python strings is contiguous-substring containment;
embedded over the character lists of the strings. -/

/-- `leadEq n h` is true when the list `n` is an initial segment of `h`
(the primitive behind Python substring search). -/
def leadEq : List Char → List Char → Bool
  | [], _ => true
  | _ :: _, [] => false
  | a :: as, b :: bs => a = b && leadEq as bs

/-- `hasSub n h` is true when `n` occurs contiguously inside `h`. -/
def hasSub (n : List Char) : List Char → Bool
  | [] => leadEq n []
  | c :: t => leadEq n (c :: t) || hasSub n t

/-- Embedding of the Python expression `needle in hay` on strings. -/
def pyIn (needle hay : String) : Bool :=
  hasSub needle.data hay.data

theorem leadEq_iff (n : List Char) : ∀ h : List Char,
    leadEq n h = true ↔ ∃ q, h = n ++ q := by
  induction n with
  | nil =>
    intro h
    simp [leadEq]
  | cons a as ih =>
    intro h
    cases h with
    | nil =>
      simp [leadEq]
    | cons b bs =>
      simp only [leadEq, Bool.and_eq_true, decide_eq_true_eq, ih bs]
      constructor
      · rintro ⟨rfl, q, rfl⟩
        exact ⟨q, rfl⟩
      · rintro ⟨q, hq⟩
        cases hq
        exact ⟨rfl, q, rfl⟩

theorem hasSub_iff (n : List Char) : ∀ h : List Char,
    hasSub n h = true ↔ ∃ p q, h = p ++ n ++ q := by
  intro h
  induction h with
  | nil =>
    simp only [hasSub, leadEq_iff]
    constructor
    · rintro ⟨q, hq⟩
      exact ⟨[], q, by simpa using hq⟩
    · rintro ⟨p, q, hpq⟩
      have hp : p = [] := by
        cases p with
        | nil => rfl
        | cons x xs => simp at hpq
      subst hp
      exact ⟨q, by simpa using hpq⟩
  | cons c t ih =>
    simp only [hasSub, Bool.or_eq_true, leadEq_iff, ih]
    constructor
    · rintro (⟨q, hq⟩ | ⟨p, q, hpq⟩)
      · exact ⟨[], q, by simpa using hq⟩
      · exact ⟨c :: p, q, by simp [hpq]⟩
    · rintro ⟨p, q, hpq⟩
      cases p with
      | nil =>
        exact Or.inl ⟨q, by simpa using hpq⟩
      | cons x xs =>
        simp only [List.cons_append, List.cons.injEq] at hpq
        exact Or.inr ⟨xs, q, by simp [hpq.2]⟩

theorem hasSub_append_left (n g : List Char) : ∀ h : List Char,
    hasSub n h = true → hasSub n (g ++ h) = true := by
  intro h hh
  rcases (hasSub_iff n h).mp hh with ⟨p, q, rfl⟩
  exact (hasSub_iff n (g ++ (p ++ n ++ q))).mpr ⟨g ++ p, q, by simp⟩

/-- Characterisation of the Python test `needle in hay` as an occurrence
of `needle` anywhere inside `hay`. -/
theorem pyIn_iff (needle hay : String) :
    pyIn needle hay = true ↔ ∃ p q, hay.data = p ++ needle.data ++ q :=
  hasSub_iff needle.data hay.data

/-! ### HTTP and filesystem model -/

/-- One HTTP response: the status code and the body the server sent. -/
structure HttpResp where
  status : Nat
  body : String
deriving DecidableEq

/-- Python file-open modes used by the source: `"a"` appends,
`"w"`/`"wb"` create or truncate. -/
inductive FileMode where
  | append
  | write
deriving DecidableEq

/-- One filesystem write performed by a worker. -/
structure FsWrite where
  path : String
  mode : FileMode
  data : String
deriving DecidableEq

/-- Split a character list at every occurrence of `sep` (the semantics of
Python `str.split` with a one-character separator). -/
def splitOnChar (sep : Char) : List Char → List (List Char)
  | [] => [[]]
  | c :: t =>
    match splitOnChar sep t, decide (c = sep) with
    | r, true => [] :: r
    | [], false => [[c]]
    | h :: rest, false => (c :: h) :: rest

/-- `image_url.split("/")[-1]`: the last path segment of a URL. -/
def lastSeg (s : String) : String :=
  String.mk ((splitOnChar '/' s.data).getLastD [])

/-! ### Ticker pipeline (`src/ticker.py`) -/

/-- The HTTP world seen by a ticker worker: the response the endpoint
returns for each ticker symbol (the URL is `base_url + ticker`). -/
def TickerEnv := String → HttpResp

/-- `Ticker.get`: GET `base_url + ticker`; any status other than 200 is
logged as failed and yields the empty string, otherwise the body text. -/
def tickerGet (env : TickerEnv) (t : String) : String :=
  let resp := env t
  if resp.status ≠ 200 then "" else resp.body

/-- `Ticker.aio_process`: fetch one ticker; on a falsy (empty) result
report `"<ticker> fetch failed"` with no write, otherwise append the body
to `out_dir/<ticker>.csv` (mode `"a"`) and report success. Returns the
writes performed and the status record. -/
def tickerAioProcess (env : TickerEnv) (out t : String) :
    List FsWrite × String :=
  let fname := out ++ "/" ++ t ++ ".csv"
  let res := tickerGet env t
  if res = "" then ([], t ++ " fetch failed")
  else ([⟨fname, FileMode.append, res⟩], t ++ " fetch succeeded")

/-- The status records a ticker worker's `asyncio_sessions` gathers, in
task-submission order (`asyncio.gather` preserves it). -/
def tickerAsyncRecords (env : TickerEnv) (out : String)
    (tickers : List String) : List String :=
  tickers.map fun t => (tickerAioProcess env out t).2

/-- All writes performed by a ticker worker's async batch. -/
def tickerAsyncWrites (env : TickerEnv) (out : String)
    (tickers : List String) : List FsWrite :=
  (tickers.map fun t => (tickerAioProcess env out t).1).flatten

/-- `Ticker.sync_process`: one blocking GET per ticker in order; a non-200
status emits a failure record and no write, otherwise the body is written
to `out_dir/<ticker>.csv` opened with mode `"w"` (truncating) and a success
record is emitted. -/
def tickerSyncProcess (env : TickerEnv) (out : String) :
    List String → List FsWrite × List String
  | [] => ([], [])
  | t :: ts =>
    let rest := tickerSyncProcess env out ts
    let resp := env t
    if resp.status ≠ 200 then
      (rest.1, (t ++ " fetch failed") :: rest.2)
    else
      (⟨out ++ "/" ++ t ++ ".csv", FileMode.write, resp.body⟩ :: rest.1,
        (t ++ " fetch succeeded") :: rest.2)

/-- `Ticker.run` intake loop: dequeue until the first item equal to the
sentinel string `"done"`; the batch is everything dequeued before it. -/
def tickerIntakeBatch : List String → List String
  | [] => []
  | t :: rest => if t = "done" then [] else t :: tickerIntakeBatch rest

/-- The items the intake loop actually dequeues: the batch plus the one
terminating sentinel-valued item. -/
def tickerIntakeConsumed : List String → List String
  | [] => []
  | t :: rest => if t = "done" then [t] else t :: tickerIntakeConsumed rest

/-- The ticker coordinator's enqueue loop: `enumerate(tickers_list)`,
breaking as soon as `idx >= fetch_count`. -/
def tickerEnqueue : List String → Nat → List String
  | [], _ => []
  | _, 0 => []
  | t :: ts, Nat.succ n => t :: tickerEnqueue ts n

/-- The sentinels the coordinator enqueues after the real tasks, one per
spawned worker. -/
def sentinels (workerCount : Nat) : List String :=
  List.replicate workerCount "done"

/-- Full task-queue contents in enqueue order: real tasks first, then the
sentinels. -/
def tickerQueueContents (tickersList : List String)
    (fetchCount workerCount : Nat) : List String :=
  tickerEnqueue tickersList fetchCount ++ sentinels workerCount

/-- Ticker `main` worker-count clamp: lower to `cpu_count()` when the
requested process count exceeds it. -/
def effProcTicker (requested cpu : Nat) : Nat :=
  if requested > cpu then cpu else requested

/-- The coordinator drain loop: `result_queue.get()` exactly `n` times,
counting the records in which the substring `"failed"` occurs. -/
def coordFailCount (results : List String) (n : Nat) : Nat :=
  ((results.take n).filter fun r => pyIn "failed" r).length

/-- The success count printed by the coordinator: `n - fail_count`. -/
def coordSuccessCount (results : List String) (n : Nat) : Nat :=
  n - coordFailCount results n

/-! ### Image pipeline (`src/image_scraper.py`) -/

/-- The fixed host substring the scraper filters image URLs by. -/
def imgHost : String := "images.stockfreeimages.com"

/-- The HTTP world seen by an image worker. `pageResp`/`pageSrcs` describe
the listing page fetched for a page number: the raw response, and the
`img/@src` attribute values `lxml` extracts from the returned body
(whatever the status). `imgResp` is the response for an image URL. -/
structure ImageEnv where
  pageResp : Nat → HttpResp
  pageSrcs : Nat → List String
  imgResp : String → HttpResp

/-- Items on the image pipeline's task queue: the coordinator enqueues
page numbers (ints) and the string sentinel `"done"`. -/
inductive ImgItem where
  | pageNum (n : Nat)
  | strVal (s : String)
deriving DecidableEq

/-- The worker's `task == 'done'` test: an int page number never equals
the sentinel string. -/
def imgIsDone : ImgItem → Bool
  | ImgItem.pageNum _ => false
  | ImgItem.strVal s => s = "done"

/-- The `img/@src` values the async listing fetch yields: `Image.get` with
`content_type='text'` returns the marker string `"failed"` on a non-200
status, and `html.fromstring("failed")` contains no `img` element, so a
failed listing fetch contributes no sources. -/
def imageListingSrcsAsync (env : ImageEnv) (page : Nat) : List String :=
  if (env.pageResp page).status ≠ 200 then [] else env.pageSrcs page

/-- The URL filter applied to extracted sources: keep those containing the
fixed host substring. -/
def imageCandidates (srcs : List String) : List String :=
  srcs.filter fun u => pyIn imgHost u

/-- `Image.aio_process`: fetch one image URL. On a 200 response a truthy
(non-empty) body passes the `if image:` guard and is written to
`OUT_DIR/<last-segment>` (mode `"wb"`, create/overwrite), and the
coroutine returns `"Fetch succeeded: <image_url>"`; an empty 200 body
skips the write but still returns that record. On any other status
`Image.get` returns the str marker `"failed"`, which is also truthy, so
the binary-mode file is opened — creating it empty — and
`file.write("failed")` then raises `TypeError` (a str written to a `"wb"`
file): the coroutine crashes having returned no record, modelled as
`none`; the empty file creation is recorded as a write of `""`. -/
def imageAioProcess (env : ImageEnv) (outDir url : String) :
    List FsWrite × Option String :=
  let imgPath := outDir ++ "/" ++ lastSeg url
  if (env.imgResp url).status ≠ 200 then
    ([⟨imgPath, FileMode.write, ""⟩], none)
  else if (env.imgResp url).body ≠ "" then
    ([⟨imgPath, FileMode.write, (env.imgResp url).body⟩],
      some ("Fetch succeeded: " ++ url))
  else ([], some ("Fetch succeeded: " ++ url))

/-- The fetch targets an async image worker accumulates: per page, the
filtered `img/@src` candidates of its listing page. (The inner
`for page_number in range(1)` loop of the source executes its body exactly
once per page.) -/
def imageAsyncTargets (env : ImageEnv) (pages : List Nat) : List String :=
  pages.flatMap fun p => imageCandidates (imageListingSrcsAsync env p)

/-- `Image.asyncio_sessions`: fetch every listing page, gather an
`aio_process` task per surviving image URL, then put every result on the
result queue. If any gathered coroutine raises (the non-200 `TypeError`
path of `aio_process`), `asyncio.gather` propagates the exception through
`asyncio.run` and the worker process dies before its put loop, so no
record at all is emitted; otherwise every record is emitted after the
whole batch completes. Returns the writes and the emitted records. -/
def imageAsyncioSessions (env : ImageEnv) (outDir : String)
    (pages : List Nat) : List FsWrite × List String :=
  let results := (imageAsyncTargets env pages).map (imageAioProcess env outDir)
  ((results.map Prod.fst).flatten,
    if results.all fun r => r.2.isSome then
      results.filterMap fun r => r.2
    else [])

/-- One candidate image URL handled by `Image.sync_process`: only a 200
status writes (to the hard-coded directory `images/`, mode `"wb"`) and
emits the record `"<page> fetch succeeded"`; any other status emits
nothing at all. -/
def imageSyncFetchOne (env : ImageEnv) (page : Nat) (url : String) :
    List FsWrite × List String :=
  if (env.imgResp url).status = 200 then
    ([⟨"images/" ++ lastSeg url, FileMode.write, (env.imgResp url).body⟩],
      [toString page ++ " fetch succeeded"])
  else ([], [])

/-- `Image.sync_process` for one page: the listing body is parsed with no
status check, and each filtered candidate is fetched in order. -/
def imageSyncPage (env : ImageEnv) (page : Nat) : List FsWrite × List String :=
  let per := (imageCandidates (env.pageSrcs page)).map
    (imageSyncFetchOne env page)
  ((per.map Prod.fst).flatten, (per.map Prod.snd).flatten)

/-- `Image.sync_process` over the worker's whole page batch, in order. -/
def imageSyncProcess (env : ImageEnv) (pages : List Nat) :
    List FsWrite × List String :=
  let per := pages.map (imageSyncPage env)
  ((per.map Prod.fst).flatten, (per.map Prod.snd).flatten)

/-- `Image.run` intake loop: dequeue until the first item that equals the
sentinel string `"done"`. -/
def imageIntakeBatch : List ImgItem → List ImgItem
  | [] => []
  | t :: rest => if imgIsDone t then [] else t :: imageIntakeBatch rest

/-- The items the image intake loop dequeues, sentinel included. -/
def imageIntakeConsumed : List ImgItem → List ImgItem
  | [] => []
  | t :: rest => if imgIsDone t then [t] else t :: imageIntakeConsumed rest

/-- Image `main` enqueue loop: pages `1 .. amount_pages` in order. -/
def imageEnqueue (amountPages : Nat) : List Nat :=
  (List.range amountPages).map (· + 1)

/-- Full image task-queue contents: the page tasks, then one string
sentinel per spawned worker. -/
def imageQueueContents (amountPages workerCount : Nat) : List ImgItem :=
  (imageEnqueue amountPages).map ImgItem.pageNum ++
    List.replicate workerCount (ImgItem.strVal "done")

/-- Image `main` worker-count clamp: raise to `cpu_count()` when the
requested process count is below it. -/
def effProcImage (requested cpu : Nat) : Nat :=
  if requested < cpu then cpu else requested

/-- Image `main` page-count clamp against the count the site reports. -/
def clampPages (requested site : Nat) : Nat :=
  if requested > site then site else requested

/-! ### Event traces for the async emission order

Within one async worker the completion order of the gathered fetch+save
coroutines is unspecified; it is abstracted as an arbitrary `order` list.
What the source fixes is that the `result_queue.put` loop runs only after
`await asyncio.gather(...)` has returned, so every emit event follows
every fetch+save event. -/

/-- A worker-visible event: a fetch+save completing, or a record being put
on the result queue. -/
inductive Ev where
  | work (s : String)
  | emit (s : String)
deriving DecidableEq

/-- Whether an event is an emission to the result queue. -/
def isEmit : Ev → Bool
  | Ev.work _ => false
  | Ev.emit _ => true

/-- Trace of `Ticker.asyncio_sessions`: the batch's fetch+save completions
in an arbitrary order, then the result emissions. -/
def tickerAsyncTrace (env : TickerEnv) (out : String)
    (order tickers : List String) : List Ev :=
  order.map Ev.work ++ (tickerAsyncRecords env out tickers).map Ev.emit

/-- Trace of `Image.asyncio_sessions`: the sequential listing fetches,
then the gathered image fetch+saves in an arbitrary order, then the result
emissions. -/
def imageAsyncTrace (env : ImageEnv) (outDir : String) (pages : List Nat)
    (order : List String) : List Ev :=
  (pages.map toString ++ order).map Ev.work ++
    (imageAsyncioSessions env outDir pages).2.map Ev.emit

/-! ### Concrete environments used as test inputs -/

/-- A ticker endpoint that answers 200 with body `"B"` for everything. -/
def envTickOk : TickerEnv := fun _ => ⟨200, "B"⟩

/-- A ticker endpoint that answers 404 for `"CCC"` and 200 otherwise. -/
def envTick404 : TickerEnv := fun t =>
  if t = "CCC" then ⟨404, "ERR"⟩ else ⟨200, "B"⟩

/-- A matching image URL used in the concrete scenarios. -/
def urlA : String := "http://images.stockfreeimages.com/pics/a.jpg"

/-- An image world whose listing pages contain no matching image URL. -/
def envImgEmpty : ImageEnv :=
  ⟨fun _ => ⟨200, "<html></html>"⟩, fun _ => [], fun _ => ⟨200, "IMG"⟩⟩

/-- An image world whose listing pages offer `urlA`, with every image
fetch answered 404. -/
def envImg404 : ImageEnv :=
  ⟨fun _ => ⟨200, "page"⟩, fun _ => [urlA], fun _ => ⟨404, "ERR"⟩⟩

/-- An image world whose listing pages offer `urlA`, with every image
fetch answered 200 with body `"IMG"`. -/
def envImgOk : ImageEnv :=
  ⟨fun _ => ⟨200, "page"⟩, fun _ => [urlA], fun _ => ⟨200, "IMG"⟩⟩

/-- A second matching image URL. -/
def urlB : String := "http://images.stockfreeimages.com/pics/b.jpg"

/-- An image world whose listing pages offer two matching image URLs. -/
def envImg2 : ImageEnv :=
  ⟨fun _ => ⟨200, "page"⟩, fun _ => [urlA, urlB], fun _ => ⟨200, "IMG"⟩⟩

example : lastSeg urlA = "a.jpg" := by decide
example : pyIn imgHost urlA = true := by decide
example : pyIn "failed" "Fetch succeeded: http://h/failed.jpg" = true := by
  decide
example : tickerAioProcess envTickOk "out" "AAA" =
    ([⟨"out/AAA.csv", FileMode.append, "B"⟩], "AAA fetch succeeded") := by
  decide
example : imageAioProcess envImg404 "out" urlA =
    ([⟨"out/a.jpg", FileMode.write, ""⟩], none) := by decide
example : imageAioProcess envImgOk "out" urlA =
    ([⟨"out/a.jpg", FileMode.write, "IMG"⟩],
      some ("Fetch succeeded: " ++ urlA)) := by decide
example : imageAsyncioSessions envImg404 "out" [1] =
    ([⟨"out/a.jpg", FileMode.write, ""⟩], []) := by decide
example : imageSyncProcess envImg404 [1] = ([], []) := by decide
example : imageAsyncioSessions envImgEmpty "out" [1] = ([], []) := by decide
example : imageSyncProcess envImgOk [1] =
    ([⟨"images/a.jpg", FileMode.write, "IMG"⟩], ["1 fetch succeeded"]) := by
  decide
example : tickerSyncProcess envTick404 "out" ["AAA", "CCC"] =
    ([⟨"out/AAA.csv", FileMode.write, "B"⟩],
      ["AAA fetch succeeded", "CCC fetch failed"]) := by decide

/-! ### Helper lemmas -/

theorem tickerIntakeBatch_eq : ∀ pre : List String, "done" ∉ pre →
    ∀ post : List String, tickerIntakeBatch (pre ++ "done" :: post) = pre := by
  intro pre
  induction pre with
  | nil =>
    intro _ post
    simp [tickerIntakeBatch]
  | cons t ts ih =>
    intro h post
    simp only [List.mem_cons, not_or] at h
    have ht : t ≠ "done" := fun e => h.1 e.symm
    simp [tickerIntakeBatch, ht, ih (fun hm => h.2 hm) post]

theorem tickerIntakeConsumed_eq : ∀ pre : List String, "done" ∉ pre →
    ∀ post : List String,
      tickerIntakeConsumed (pre ++ "done" :: post) = pre ++ ["done"] := by
  intro pre
  induction pre with
  | nil =>
    intro _ post
    simp [tickerIntakeConsumed]
  | cons t ts ih =>
    intro h post
    simp only [List.mem_cons, not_or] at h
    have ht : t ≠ "done" := fun e => h.1 e.symm
    simp [tickerIntakeConsumed, ht, ih (fun hm => h.2 hm) post]

theorem imageIntakeBatch_eq : ∀ pages : List Nat, ∀ post : List ImgItem,
    imageIntakeBatch (pages.map ImgItem.pageNum ++ ImgItem.strVal "done" :: post)
      = pages.map ImgItem.pageNum := by
  intro pages
  induction pages with
  | nil =>
    intro post
    simp [imageIntakeBatch, imgIsDone]
  | cons p ps ih =>
    intro post
    simp [imageIntakeBatch, imgIsDone, ih post]

theorem imageIntakeConsumed_eq : ∀ pages : List Nat, ∀ post : List ImgItem,
    imageIntakeConsumed
        (pages.map ImgItem.pageNum ++ ImgItem.strVal "done" :: post)
      = pages.map ImgItem.pageNum ++ [ImgItem.strVal "done"] := by
  intro pages
  induction pages with
  | nil =>
    intro post
    simp [imageIntakeConsumed, imgIsDone]
  | cons p ps ih =>
    intro post
    simp [imageIntakeConsumed, imgIsDone, ih post]

theorem tickerEnqueue_eq_take : ∀ (l : List String) (n : Nat),
    tickerEnqueue l n = l.take n := by
  intro l
  induction l with
  | nil =>
    intro n
    cases n <;> rfl
  | cons t ts ih =>
    intro n
    cases n with
    | zero => rfl
    | succ n => simp [tickerEnqueue, ih n]

theorem tickerSyncProcess_mode (env : TickerEnv) (out : String) :
    ∀ (ts : List String) (w : FsWrite),
      w ∈ (tickerSyncProcess env out ts).1 → w.mode = FileMode.write := by
  intro ts
  induction ts with
  | nil =>
    intro w hw
    simp [tickerSyncProcess] at hw
  | cons t ts ih =>
    intro w hw
    by_cases hst : (env t).status = 200
    · simp only [tickerSyncProcess, hst] at hw
      simp only [ne_eq, not_true_eq_false, if_false] at hw
      rcases List.mem_cons.mp hw with rfl | hm
      · rfl
      · exact ih w hm
    · simp only [tickerSyncProcess, if_pos hst] at hw
      exact ih w hw

theorem tickerSyncProcess_records_length (env : TickerEnv) (out : String) :
    ∀ ts : List String, (tickerSyncProcess env out ts).2.length = ts.length := by
  intro ts
  induction ts with
  | nil => rfl
  | cons t ts ih =>
    by_cases hst : (env t).status = 200 <;>
      simp [tickerSyncProcess, hst, ih]

theorem tickerAsyncRecords_length (env : TickerEnv) (out : String)
    (ts : List String) : (tickerAsyncRecords env out ts).length = ts.length :=
  List.length_map ts fun t => (tickerAioProcess env out t).2

/-- Every file touched by `Image.aio_process` — the written image on the
200 path, the empty file the crashing non-200 path leaves behind — is at
`OUT_DIR/<last-segment>` and was opened in create/overwrite mode. -/
theorem imageAioProcess_write_shape (env : ImageEnv) (out url : String)
    (w : FsWrite) : w ∈ (imageAioProcess env out url).1 →
    w.mode = FileMode.write ∧ w.path = out ++ "/" ++ lastSeg url := by
  intro hw
  by_cases hst : (env.imgResp url).status = 200
  · by_cases hb : (env.imgResp url).body = ""
    · simp [imageAioProcess, hst, hb] at hw
    · simp only [imageAioProcess, hst, hb, ne_eq, not_true_eq_false,
        not_false_eq_true, if_false, if_true, List.mem_singleton] at hw
      subst hw
      exact ⟨rfl, rfl⟩
  · simp only [imageAioProcess, hst, ne_eq, not_false_eq_true, if_true,
      List.mem_singleton] at hw
    subst hw
    exact ⟨rfl, rfl⟩

/-- In a list of work events followed by emit events, every emit index is
at least the number of work events. -/
theorem emit_index_ge (ws rs : List String) : ∀ (k : Nat)
    (hk : k < (ws.map Ev.work ++ rs.map Ev.emit).length),
    isEmit ((ws.map Ev.work ++ rs.map Ev.emit).get ⟨k, hk⟩) = true →
    ws.length ≤ k := by
  induction ws with
  | nil =>
    intro k _ _
    exact Nat.zero_le k
  | cons w ws ih =>
    intro k hk hE
    cases k with
    | zero => simp [isEmit] at hE
    | succ k =>
      have hk2 : k < (ws.map Ev.work ++ rs.map Ev.emit).length := by
        simpa using Nat.lt_of_succ_lt_succ hk
      exact Nat.succ_le_succ (ih k hk2 hE)

theorem emit_map_all (rs : List String) : ∀ (k : Nat)
    (hk : k < (rs.map Ev.emit).length),
    isEmit ((rs.map Ev.emit).get ⟨k, hk⟩) = true := by
  induction rs with
  | nil =>
    intro k hk
    exact absurd hk (by simp)
  | cons r rs ih =>
    intro k hk
    cases k with
    | zero => rfl
    | succ k => exact ih k (by simpa using Nat.lt_of_succ_lt_succ hk)

/-- In a list of work events followed by emit events, every non-emit index
is below the number of work events. -/
theorem work_index_lt (ws rs : List String) : ∀ (j : Nat)
    (hj : j < (ws.map Ev.work ++ rs.map Ev.emit).length),
    isEmit ((ws.map Ev.work ++ rs.map Ev.emit).get ⟨j, hj⟩) = false →
    j < ws.length := by
  induction ws with
  | nil =>
    intro j hj hW
    have := emit_map_all rs j (by simpa using hj)
    rw [show ((List.map Ev.work [] ++ rs.map Ev.emit).get
        ⟨j, hj⟩) = ((rs.map Ev.emit).get ⟨j, by simpa using hj⟩) from rfl]
        at hW
    rw [this] at hW
    exact absurd hW (by simp)
  | cons w ws ih =>
    intro j hj hW
    cases j with
    | zero => exact Nat.succ_pos _
    | succ j =>
      have hj2 : j < (ws.map Ev.work ++ rs.map Ev.emit).length := by
        simpa using Nat.lt_of_succ_lt_succ hj
      exact Nat.succ_lt_succ (ih j hj2 hW)

/-! ### The claims -/

/-- C1: the one-StatusRecord-per-dequeued-Task invariant fails on the
image pipeline. Evaluated at the failing input (a worker batch of one page
task): with no matching image URL on the listing page the async and the
sync worker both emit zero records; with two matching URLs the async
worker emits two. The ticker workers do emit exactly one record per
dequeued task in both modes, so the coordinator drain count matches there
only. -/
theorem c1_image_breaks_one_record_per_task :
    (imageAsyncioSessions envImgEmpty "out" [1]).2.length = 0
    ∧ (imageSyncProcess envImgEmpty [1]).2.length = 0
    ∧ (imageAsyncioSessions envImg2 "out" [1]).2.length = 2
    ∧ ([1] : List Nat).length = 1
    ∧ tickerAsyncRecords envTickOk "out" ["AAA", "BBB"] =
        ["AAA fetch succeeded", "BBB fetch succeeded"]
    ∧ (tickerSyncProcess envTick404 "out" ["AAA", "CCC"]).2 =
        ["AAA fetch succeeded", "CCC fetch failed"] := by decide

/-- C2: non-200 handling fails on the image pipeline, evaluated at the
failing input (an image URL answered 404). The async worker's `Image.get`
returns the truthy str marker `"failed"`, so `aio_process` opens the
binary-mode output file — creating it empty — and then crashes with
`TypeError` writing the str to it; the crash propagates through
`asyncio.gather` and `asyncio.run`, so the worker emits no record at all
for the batch (a file was still touched). The sync worker emits no record
either on non-200. Both contradict the claimed Failure-record-and-no-write
behaviour. The ticker pipeline does behave as claimed: non-200 gives a
failure record and no write in both modes. -/
theorem c2_non200_image_bug :
    imageAioProcess envImg404 "out" urlA =
      ([⟨"out/a.jpg", FileMode.write, ""⟩], none)
    ∧ (imageAsyncioSessions envImg404 "out" [1]).1 =
        [⟨"out/a.jpg", FileMode.write, ""⟩]
    ∧ (imageAsyncioSessions envImg404 "out" [1]).2 = []
    ∧ (imageSyncProcess envImg404 [1]).2 = []
    ∧ (imageSyncProcess envImg404 [1]).1 = []
    ∧ tickerAioProcess envTick404 "out" "CCC" = ([], "CCC fetch failed")
    ∧ tickerSyncProcess envTick404 "out" ["CCC"] =
        ([], ["CCC fetch failed"]) := by decide

/-- C3 counterexample: the ticker sync worker opens the output file with
mode `"w"`, which truncates an existing file; the claim that both ticker
modes append is false at this input. -/
theorem c3_sync_truncates_cex :
    (tickerSyncProcess envTickOk "out" ["AAA"]).1 =
      [⟨"out/AAA.csv", FileMode.write, "B"⟩]
    ∧ FileMode.write ≠ FileMode.append := by decide

/-- C3 (amended): a successful *async* ticker fetch appends the body to
`output_dir/<ticker>.csv` (mode `"a"`, never truncating); a successful
*sync* ticker fetch writes `output_dir/<ticker>.csv` with truncating mode
`"w"`; a successful image fetch always creates/overwrites its file. -/
theorem c3_write_modes (tenv : TickerEnv) (ienv : ImageEnv)
    (out t url : String) (w : FsWrite) :
    (w ∈ (tickerAioProcess tenv out t).1 →
      w.mode = FileMode.append ∧ w.path = out ++ "/" ++ t ++ ".csv"
        ∧ w.data = tickerGet tenv t)
    ∧ (∀ ts, w ∈ (tickerSyncProcess tenv out ts).1 →
        w.mode = FileMode.write)
    ∧ (w ∈ (imageAioProcess ienv out url).1 → w.mode = FileMode.write)
    ∧ (∀ p, w ∈ (imageSyncFetchOne ienv p url).1 →
        w.mode = FileMode.write) := by
  refine ⟨?_, fun ts hw => tickerSyncProcess_mode tenv out ts w hw, ?_, ?_⟩
  · intro hw
    by_cases hres : tickerGet tenv t = ""
    · simp [tickerAioProcess, hres] at hw
    · simp only [tickerAioProcess, if_neg hres, List.mem_singleton] at hw
      subst hw
      exact ⟨rfl, rfl, rfl⟩
  · intro hw
    exact (imageAioProcess_write_shape ienv out url w hw).1
  · intro p hw
    by_cases hst : (ienv.imgResp url).status = 200
    · simp only [imageSyncFetchOne, if_pos hst, List.mem_singleton] at hw
      subst hw
      rfl
    · simp [imageSyncFetchOne, hst] at hw

/-- Witness for C3 (amended) at a concrete successful async fetch. -/
theorem c3_write_modes_witness :
    (⟨"out/AAA.csv", FileMode.append, "B"⟩ : FsWrite).mode = FileMode.append
    ∧ (⟨"out/AAA.csv", FileMode.append, "B"⟩ : FsWrite).path =
        "out" ++ "/" ++ "AAA" ++ ".csv"
    ∧ (⟨"out/AAA.csv", FileMode.append, "B"⟩ : FsWrite).data =
        tickerGet envTickOk "AAA" :=
  (c3_write_modes envTickOk envImgOk "out" "AAA" urlA
    ⟨"out/AAA.csv", FileMode.append, "B"⟩).1 (by decide)

/-- C4 counterexample: with two items requested but only one ticker in the
config list, the coordinator enqueues one real task (then the sentinels),
not `item_count` of them, while its drain loop still reads `item_count`
records. -/
theorem c4_enqueue_shortfall_cex :
    (tickerEnqueue ["AAA"] 2).length = 1
    ∧ tickerQueueContents ["AAA"] 2 1 = ["AAA", "done"]
    ∧ (1 : Nat) ≠ 2 := by decide

/-- C4 (amended): the ticker coordinator enqueues exactly
`min(item_count, length of the config ticker list)` real Tasks followed by
exactly `worker_count` Sentinels, and then performs exactly `item_count`
blocking reads of the result channel (never `item_count + worker_count`);
the image coordinator enqueues exactly the clamped page count, pages
`1..item_count` in order, followed by `worker_count` Sentinels, and reads
`item_count` records. -/
theorem c4_enqueue_drain (l : List String) (n wc m : Nat)
    (results : List String) :
    tickerEnqueue l n = l.take n
    ∧ (tickerEnqueue l n).length = min n l.length
    ∧ tickerQueueContents l n wc = l.take n ++ List.replicate wc "done"
    ∧ (sentinels wc).length = wc
    ∧ (imageEnqueue m).length = m
    ∧ (∀ i : Nat, i ∈ imageEnqueue m ↔ 1 ≤ i ∧ i ≤ m)
    ∧ imageQueueContents m wc = (imageEnqueue m).map ImgItem.pageNum ++
        List.replicate wc (ImgItem.strVal "done")
    ∧ coordFailCount results n = coordFailCount (results.take n) n
    ∧ coordFailCount results n ≤ n := by
  refine ⟨tickerEnqueue_eq_take l n, ?_, ?_, List.length_replicate wc "done",
    by simp [imageEnqueue], ?_, rfl, ?_, ?_⟩
  · rw [tickerEnqueue_eq_take l n]
    exact List.length_take n l
  · unfold tickerQueueContents sentinels
    rw [tickerEnqueue_eq_take l n]
  · intro i
    simp only [imageEnqueue, List.mem_map, List.mem_range]
    constructor
    · rintro ⟨j, hj, rfl⟩
      omega
    · rintro ⟨h1, h2⟩
      exact ⟨i - 1, by omega, by omega⟩
  · unfold coordFailCount
    rw [List.take_take]
    simp
  · calc coordFailCount results n
        ≤ (results.take n).length := List.length_filter_le _ _
      _ ≤ n := List.length_take_le n results

/-- C5: with the sentinel `"done"` enqueued once per worker, every
worker's intake loop stops at its first sentinel, dequeues exactly that
one sentinel, and never adds a sentinel to its batch — in both the ticker
and the image pipeline. -/
theorem c5_sentinel_protocol (pre post : List String) (pages : List Nat)
    (ipost : List ImgItem) (h : "done" ∉ pre) :
    tickerIntakeBatch (pre ++ "done" :: post) = pre
    ∧ tickerIntakeConsumed (pre ++ "done" :: post) = pre ++ ["done"]
    ∧ (tickerIntakeConsumed (pre ++ "done" :: post)).count "done" = 1
    ∧ "done" ∉ tickerIntakeBatch (pre ++ "done" :: post)
    ∧ imageIntakeBatch
        (pages.map ImgItem.pageNum ++ ImgItem.strVal "done" :: ipost) =
        pages.map ImgItem.pageNum
    ∧ imageIntakeConsumed
        (pages.map ImgItem.pageNum ++ ImgItem.strVal "done" :: ipost) =
        pages.map ImgItem.pageNum ++ [ImgItem.strVal "done"]
    ∧ (imageIntakeConsumed
        (pages.map ImgItem.pageNum ++ ImgItem.strVal "done" :: ipost)).countP
          imgIsDone = 1 := by
  refine ⟨tickerIntakeBatch_eq pre h post, tickerIntakeConsumed_eq pre h post,
    ?_, ?_, imageIntakeBatch_eq pages ipost, imageIntakeConsumed_eq pages ipost,
    ?_⟩
  · rw [tickerIntakeConsumed_eq pre h post]
    rw [List.count_append]
    rw [List.count_eq_zero.mpr h]
    rfl
  · rw [tickerIntakeBatch_eq pre h post]
    exact h
  · rw [imageIntakeConsumed_eq pages ipost]
    rw [List.countP_append]
    have hz : (pages.map ImgItem.pageNum).countP imgIsDone = 0 := by
      rw [List.countP_eq_zero]
      intro a ha
      rcases List.mem_map.mp ha with ⟨p, _, rfl⟩
      simp [imgIsDone]
    rw [hz]
    rfl

/-- Witness for C5 at a concrete stream of one real task, one sentinel and
one unread trailing item per pipeline. -/
theorem c5_sentinel_protocol_witness :
    tickerIntakeBatch (["AAA"] ++ "done" :: ["BBB"]) = ["AAA"]
    ∧ tickerIntakeConsumed (["AAA"] ++ "done" :: ["BBB"]) =
        ["AAA"] ++ ["done"]
    ∧ (tickerIntakeConsumed (["AAA"] ++ "done" :: ["BBB"])).count "done" = 1
    ∧ "done" ∉ tickerIntakeBatch (["AAA"] ++ "done" :: ["BBB"])
    ∧ imageIntakeBatch ([1, 2].map ImgItem.pageNum ++
        ImgItem.strVal "done" :: [ImgItem.pageNum 3]) =
        [1, 2].map ImgItem.pageNum
    ∧ imageIntakeConsumed ([1, 2].map ImgItem.pageNum ++
        ImgItem.strVal "done" :: [ImgItem.pageNum 3]) =
        [1, 2].map ImgItem.pageNum ++ [ImgItem.strVal "done"]
    ∧ (imageIntakeConsumed ([1, 2].map ImgItem.pageNum ++
        ImgItem.strVal "done" :: [ImgItem.pageNum 3])).countP imgIsDone = 1 :=
  c5_sentinel_protocol ["AAA"] ["BBB"] [1, 2] [ImgItem.pageNum 3] (by decide)

/-- C6: the two pipelines clamp the requested worker count in divergent
directions — the image pipeline raises it to the CPU-core count when
below (never ending below the core count), the ticker pipeline lowers it
to the core count when above (never ending above it). -/
theorem c6_worker_count_clamp (req cpu : Nat) :
    effProcImage req cpu = max req cpu
    ∧ effProcTicker req cpu = min req cpu
    ∧ cpu ≤ effProcImage req cpu
    ∧ effProcTicker req cpu ≤ cpu := by
  refine ⟨?_, ?_, ?_, ?_⟩ <;> simp only [effProcImage, effProcTicker] <;>
    split_ifs <;> omega

/-- C7: in async mode, a worker's result emissions all happen strictly
after every fetch+save of its batch: in any execution trace (fetch+save
completion order abstracted as `order`), every emit event's index exceeds
every non-emit event's index, for both pipelines. -/
theorem c7_batched_emission :
    (∀ (env : TickerEnv) (out : String) (order tickers : List String)
      (k j : Nat)
      (hk : k < (tickerAsyncTrace env out order tickers).length)
      (hj : j < (tickerAsyncTrace env out order tickers).length),
      isEmit ((tickerAsyncTrace env out order tickers).get ⟨k, hk⟩) = true →
      isEmit ((tickerAsyncTrace env out order tickers).get ⟨j, hj⟩) = false →
      j < k)
    ∧ (∀ (env : ImageEnv) (outDir : String) (pages : List Nat)
      (order : List String) (k j : Nat)
      (hk : k < (imageAsyncTrace env outDir pages order).length)
      (hj : j < (imageAsyncTrace env outDir pages order).length),
      isEmit ((imageAsyncTrace env outDir pages order).get ⟨k, hk⟩) = true →
      isEmit ((imageAsyncTrace env outDir pages order).get ⟨j, hj⟩) = false →
      j < k) := by
  constructor
  · intro env out order tickers k j hk hj hE hW
    have h1 := emit_index_ge order (tickerAsyncRecords env out tickers) k hk hE
    have h2 := work_index_lt order (tickerAsyncRecords env out tickers) j hj hW
    exact Nat.lt_of_lt_of_le h2 h1
  · intro env outDir pages order k j hk hj hE hW
    have h1 := emit_index_ge (pages.map toString ++ order)
      (imageAsyncioSessions env outDir pages).2 k hk hE
    have h2 := work_index_lt (pages.map toString ++ order)
      (imageAsyncioSessions env outDir pages).2 j hj hW
    exact Nat.lt_of_lt_of_le h2 h1

/-- Witness for C7: in the concrete one-ticker trace the work event at
index 0 precedes the emit event at index 1. -/
theorem c7_batched_emission_witness : (0 : Nat) < 1 :=
  c7_batched_emission.1 envTickOk "out" ["AAA"] ["AAA"] 1 0
    (by decide) (by decide) (by decide) (by decide)

/-- C8 counterexample: the sync image worker saves to the hard-coded
directory `images/`, not to the configured output directory — with
`out_dir = "out"` the produced path differs from
`output_dir/<last-path-segment>`. -/
theorem c8_sync_path_cex :
    (imageSyncProcess envImgOk [1]).1 =
      [⟨"images/a.jpg", FileMode.write, "IMG"⟩]
    ∧ ("images/a.jpg" : String) ≠ "out" ++ "/" ++ lastSeg urlA := by decide

/-- C8 (amended): both modes extract the `img/@src` candidates of the
listing page and keep exactly those containing the fixed host substring
`images.stockfreeimages.com`; the *async* worker saves each fetched image
to `OUT_DIR/<last-path-segment>`, while the *sync* worker saves to the
fixed path `images/<last-path-segment>`, ignoring the configured output
directory. -/
theorem c8_extract_filter_save (env : ImageEnv) (out url : String)
    (p : Nat) (u : String) (w : FsWrite) :
    (u ∈ imageCandidates (imageListingSrcsAsync env p) ↔
      u ∈ imageListingSrcsAsync env p ∧ pyIn imgHost u = true)
    ∧ (u ∈ imageAsyncTargets env [p] ↔
        u ∈ imageCandidates (imageListingSrcsAsync env p))
    ∧ (w ∈ (imageAioProcess env out url).1 →
        w.path = out ++ "/" ++ lastSeg url)
    ∧ (w ∈ (imageSyncFetchOne env p url).1 →
        w.path = "images/" ++ lastSeg url) := by
  refine ⟨by simp [imageCandidates, List.mem_filter],
    by simp [imageAsyncTargets], ?_, ?_⟩
  · intro hw
    exact (imageAioProcess_write_shape env out url w hw).2
  · intro hw
    by_cases hst : (env.imgResp url).status = 200
    · simp only [imageSyncFetchOne, if_pos hst, List.mem_singleton] at hw
      subst hw
      rfl
    · simp [imageSyncFetchOne, hst] at hw

/-- Witness for C8 (amended) at the concrete 200-status world: the async
save path is built from the output directory and the URL's last segment. -/
theorem c8_extract_filter_save_witness :
    (⟨"out/a.jpg", FileMode.write, "IMG"⟩ : FsWrite).path =
      "out" ++ "/" ++ lastSeg urlA :=
  (c8_extract_filter_save envImgOk "out" urlA 1 urlA
    ⟨"out/a.jpg", FileMode.write, "IMG"⟩).2.2.1 (by decide)

/-- C9: a real work item whose value is the sentinel string `"done"` is
indistinguishable from the Sentinel: the ticker worker's intake stops
there, nothing behind it in that worker's intake is dequeued, and the
records of both modes are exactly the records of the items before it —
one per such item, none for the `"done"`-valued item or anything after. -/
theorem c9_done_valued_item (pre post : List String) (env : TickerEnv)
    (out : String) (h : "done" ∉ pre) :
    tickerIntakeBatch (pre ++ "done" :: post) = pre
    ∧ tickerIntakeConsumed (pre ++ "done" :: post) = pre ++ ["done"]
    ∧ tickerAsyncRecords env out (tickerIntakeBatch (pre ++ "done" :: post))
        = tickerAsyncRecords env out pre
    ∧ (tickerAsyncRecords env out
        (tickerIntakeBatch (pre ++ "done" :: post))).length = pre.length
    ∧ (tickerSyncProcess env out
        (tickerIntakeBatch (pre ++ "done" :: post))).2
        = (tickerSyncProcess env out pre).2
    ∧ (tickerSyncProcess env out
        (tickerIntakeBatch (pre ++ "done" :: post))).2.length
        = pre.length := by
  have hb := tickerIntakeBatch_eq pre h post
  refine ⟨hb, tickerIntakeConsumed_eq pre h post, by rw [hb], ?_, by rw [hb],
    ?_⟩
  · rw [hb]
    exact tickerAsyncRecords_length env out pre
  · rw [hb]
    exact tickerSyncProcess_records_length env out pre

/-- Witness for C9 with a ticker literally named `"done"` between two real
tickers: the batch stops before it and only the first ticker is
processed. -/
theorem c9_done_valued_item_witness :
    tickerIntakeBatch (["AAA"] ++ "done" :: ["CCC"]) = ["AAA"]
    ∧ tickerIntakeConsumed (["AAA"] ++ "done" :: ["CCC"]) =
        ["AAA"] ++ ["done"]
    ∧ tickerAsyncRecords envTick404 "out"
        (tickerIntakeBatch (["AAA"] ++ "done" :: ["CCC"]))
        = tickerAsyncRecords envTick404 "out" ["AAA"]
    ∧ (tickerAsyncRecords envTick404 "out"
        (tickerIntakeBatch (["AAA"] ++ "done" :: ["CCC"]))).length =
        (["AAA"] : List String).length
    ∧ (tickerSyncProcess envTick404 "out"
        (tickerIntakeBatch (["AAA"] ++ "done" :: ["CCC"]))).2
        = (tickerSyncProcess envTick404 "out" ["AAA"]).2
    ∧ (tickerSyncProcess envTick404 "out"
        (tickerIntakeBatch (["AAA"] ++ "done" :: ["CCC"]))).2.length =
        (["AAA"] : List String).length :=
  c9_done_valued_item ["AAA"] ["CCC"] envTick404 "out" (by decide)

/-- C10: the coordinator counts a drained record as a failure exactly when
the substring `"failed"` occurs anywhere in it; the image async worker's
record for every completed (200) fetch of a URL is
`"Fetch succeeded: <url>"`, so a URL containing `"failed"` makes that
success record tally as a failure. -/
theorem c10_substring_classifier :
    (∀ r : String, pyIn "failed" r = true ↔
      ∃ p q, r.data = p ++ ("failed").data ++ q)
    ∧ (∀ rs : List String, coordFailCount rs rs.length =
        (rs.filter fun r => pyIn "failed" r).length)
    ∧ (∀ (env : ImageEnv) (out url : String),
        (env.imgResp url).status = 200 →
        (imageAioProcess env out url).2 = some ("Fetch succeeded: " ++ url))
    ∧ (∀ (url : String) (p q : List Char),
        url.data = p ++ ("failed").data ++ q →
        pyIn "failed" ("Fetch succeeded: " ++ url) = true) := by
  refine ⟨fun r => pyIn_iff "failed" r, ?_, ?_, ?_⟩
  · intro rs
    unfold coordFailCount
    rw [List.take_length]
  · intro env out url hst
    by_cases hb : (env.imgResp url).body = "" <;>
      simp [imageAioProcess, hst, hb]
  · intro url p q hurl
    have hu : pyIn "failed" url = true := (pyIn_iff "failed" url).mpr ⟨p, q, hurl⟩
    unfold pyIn
    rw [String.data_append]
    exact hasSub_append_left _ _ _ hu

/-- Witness for C10: a concrete completed fetch really returns the success
record, and such a record whose URL contains `"failed"` is classified as a
failure. -/
theorem c10_substring_classifier_witness :
    (imageAioProcess envImgOk "out" urlA).2 =
      some ("Fetch succeeded: " ++ urlA)
    ∧ pyIn "failed" ("Fetch succeeded: " ++ "http://h/failed.jpg") = true :=
  ⟨c10_substring_classifier.2.2.1 envImgOk "out" urlA (by decide),
    c10_substring_classifier.2.2.2 "http://h/failed.jpg"
      ("http://h/").data (".jpg").data (by decide)⟩

end MP
